import Mathlib

/-!
# Verification of the `tyname` crate's type-name rendering

Shallow embedding of `src/lib.rs`: the `TypeName` trait, its
implementations (generated by the macros `impl_tuple_signature_hash`,
`impl_fn_signature_hash`, `impl_array_signature_hash`,
`impl_ptrref_signature_hash`, `impl_smartptr_signature_hash`,
`impl_collections_signature_hash`, `impl_naive_signature_hash`, plus the
hand-written slice, `Result` and `Cow` impls), and the public entry point
`type_name`.

The sink (`W: fmt::Write`) is modelled by a `String` buffer together with
an oracle deciding whether a given `write_str` call fails; `fmt::Result`
propagation via `?` is modelled by `andThen`.
-/

set_option maxHeartbeats 1000000

/-- The primitive (leaf) types given a `TypeName` implementation by the
`impl_naive_signature_hash!` invocations in `src/lib.rs`. -/
inductive PrimTy where
  | string
  | str
  | bool
  | char
  | u8
  | u16
  | u32
  | u64
  | u128
  | usize
  | i8
  | i16
  | i32
  | i64
  | i128
  | isize
  | f32
  | f64
deriving DecidableEq

/-- The literal each naive (leaf) implementation writes. -/
def primName : PrimTy → String
  | .string => "String"
  | .str => "str"
  | .bool => "bool"
  | .char => "char"
  | .u8 => "u8"
  | .u16 => "u16"
  | .u32 => "u32"
  | .u64 => "u64"
  | .u128 => "u128"
  | .usize => "usize"
  | .i8 => "i8"
  | .i16 => "i16"
  | .i32 => "i32"
  | .i64 => "i64"
  | .i128 => "i128"
  | .isize => "isize"
  | .f32 => "f32"
  | .f64 => "f64"

/-- The closed set of type shapes for which `src/lib.rs` declares
`TypeName` implementations.  `tuple []` is the unit type `()`.
Arity and array-length restrictions of the macro invocations are captured
separately by `supported`. -/
inductive Ty where
  | prim (p : PrimTy)
  | tuple (ts : List Ty)
  | fnPtr (params : List Ty) (ret : Ty)
  | array (t : Ty) (n : Nat)
  | slice (t : Ty)
  | ref (t : Ty)
  | refMut (t : Ty)
  | ptrConst (t : Ty)
  | ptrMut (t : Ty)
  | boxed (t : Ty)
  | rc (t : Ty)
  | arc (t : Ty)
  | option (t : Ty)
  | vec (t : Ty)
  | vecDeque (t : Ty)
  | linkedList (t : Ty)
  | result (t e : Ty)
  | cow (t : Ty)

/-- A sink-failure oracle: given the current buffer contents and the
fragment about to be appended, decides whether that `write_str` call
fails.  A `String` buffer (the one used by `type_name`) never fails. -/
abbrev Oracle := String → String → Bool

/-- Model of `w.write_str(frag)`: appends on success; on failure the
buffer is unchanged and the failure flag is returned. -/
def wstr (f : Oracle) (frag : String) (s : String) : String × Bool :=
  if f s frag then (s, false) else (s ++ frag, true)

/-- Model of the `?` operator on `fmt::Result`: continue on success,
return the error immediately (performing nothing further) on failure. -/
def andThen : String × Bool → (String → String × Bool) → String × Bool
  | (s, true), k => k s
  | (s, false), _ => (s, false)

mutual
/-- `TypeName::write_type_name`: one equation per `impl` in `src/lib.rs`,
in source order of the `write_str` calls. -/
def write_type_name (f : Oracle) : Ty → String → String × Bool
  | .prim p, s => wstr f (primName p) s
  | .tuple [], s => wstr f "()" s
  | .tuple [t], s =>
      andThen (wstr f "(" s) fun s =>
      andThen (write_type_name f t s) fun s =>
      wstr f ",)" s
  | .tuple (h :: t :: ts), s =>
      andThen (wstr f "(" s) fun s =>
      andThen (write_type_name f h s) fun s =>
      andThen (write_tuple_tail f (t :: ts) s) fun s =>
      wstr f ")" s
  | .fnPtr [] r, s =>
      andThen (wstr f "fn() -> " s) fun s =>
      write_type_name f r s
  | .fnPtr (h :: ps) r, s =>
      andThen (wstr f "fn(" s) fun s =>
      andThen (write_type_name f h s) fun s =>
      andThen (write_fn_tail f ps s) fun s =>
      andThen (wstr f ") -> " s) fun s =>
      write_type_name f r s
  | .array t n, s =>
      andThen (wstr f "[" s) fun s =>
      andThen (write_type_name f t s) fun s =>
      andThen (wstr f "; " s) fun s =>
      andThen (wstr f (Nat.repr n) s) fun s =>
      wstr f "]" s
  | .slice t, s =>
      andThen (wstr f "[" s) fun s =>
      andThen (write_type_name f t s) fun s =>
      wstr f "]" s
  | .ref t, s =>
      andThen (wstr f "&" s) fun s =>
      write_type_name f t s
  | .refMut t, s =>
      andThen (wstr f "&mut " s) fun s =>
      write_type_name f t s
  | .ptrConst t, s =>
      andThen (wstr f "*const " s) fun s =>
      write_type_name f t s
  | .ptrMut t, s =>
      andThen (wstr f "*mut " s) fun s =>
      write_type_name f t s
  | .boxed t, s =>
      andThen (wstr f "Box" s) fun s =>
      andThen (wstr f "<" s) fun s =>
      andThen (write_type_name f t s) fun s =>
      wstr f ">" s
  | .rc t, s =>
      andThen (wstr f "Rc" s) fun s =>
      andThen (wstr f "<" s) fun s =>
      andThen (write_type_name f t s) fun s =>
      wstr f ">" s
  | .arc t, s =>
      andThen (wstr f "Arc" s) fun s =>
      andThen (wstr f "<" s) fun s =>
      andThen (write_type_name f t s) fun s =>
      wstr f ">" s
  | .option t, s =>
      andThen (wstr f "Option" s) fun s =>
      andThen (wstr f "<" s) fun s =>
      andThen (write_type_name f t s) fun s =>
      wstr f ">" s
  | .vec t, s =>
      andThen (wstr f "Vec" s) fun s =>
      andThen (wstr f "<" s) fun s =>
      andThen (write_type_name f t s) fun s =>
      wstr f ">" s
  | .vecDeque t, s =>
      andThen (wstr f "VecDeque" s) fun s =>
      andThen (wstr f "<" s) fun s =>
      andThen (write_type_name f t s) fun s =>
      wstr f ">" s
  | .linkedList t, s =>
      andThen (wstr f "LinkedList" s) fun s =>
      andThen (wstr f "<" s) fun s =>
      andThen (write_type_name f t s) fun s =>
      wstr f ">" s
  | .result t e, s =>
      andThen (wstr f "Result<" s) fun s =>
      andThen (write_type_name f t s) fun s =>
      andThen (wstr f ", " s) fun s =>
      andThen (write_type_name f e s) fun s =>
      wstr f ">" s
  | .cow t, s =>
      andThen (wstr f "Cow<" s) fun s =>
      andThen (write_type_name f t s) fun s =>
      wstr f ">" s

/-- The `$( w.write_str(", ")?; $tail::write_type_name(w)?; )*` loop of
the tuple implementations. -/
def write_tuple_tail (f : Oracle) : List Ty → String → String × Bool
  | [], s => (s, true)
  | t :: ts, s =>
      andThen (wstr f ", " s) fun s =>
      andThen (write_type_name f t s) fun s =>
      write_tuple_tail f ts s

/-- The `$( w.write_str(",")?; $tail::write_type_name(w)?; )*` loop of
the function-pointer implementations. -/
def write_fn_tail (f : Oracle) : List Ty → String → String × Bool
  | [], s => (s, true)
  | t :: ts, s =>
      andThen (wstr f "," s) fun s =>
      andThen (write_type_name f t s) fun s =>
      write_fn_tail f ts s
end

/-- The infallible sink: `String`'s `fmt::Write` implementation never
fails, which is the sink `type_name` uses. -/
def never : Oracle := fun _ _ => false

/-- A sink whose every `write_str` call fails. -/
def always_fail : Oracle := fun _ _ => true

/-- `tyname::type_name`: render into a fresh `String` buffer. -/
def type_name (t : Ty) : String :=
  (write_type_name never t "").1

/-- The `type_name` entry point run against an arbitrary sink: `none`
models the `.expect(..)` panic taken on a failed write (no string, not
even a partial one, is returned to the caller). -/
def type_name_with (f : Oracle) (t : Ty) : Option String :=
  let r := write_type_name f t ""
  if r.2 then some r.1 else none

/-- The closed, enumerated list of supported fixed-array lengths, in the
order of the `impl_array_signature_hash!` invocation in `src/lib.rs`:
1–32, the listed powers of two, and the two specialized lengths. -/
def array_lengths : List Nat :=
  [1, 2, 3, 4, 5, 6, 7, 8, 9, 10,
   11, 12, 13, 14, 15, 16, 17, 18, 19, 20,
   21, 22, 23, 24, 25, 26, 27, 28, 29, 30,
   31, 32,
   64, 128, 256, 512, 1024, 2048, 4096,
   160, 192]

mutual
/-- Whether `src/lib.rs` declares a `TypeName` implementation for this
type shape, given implementations for all nested types.  The macro
invocations generate tuple impls for arities 0 through 10
(`impl_tuple_signature_hash!(T0 .. T9)`: head plus up to nine tail
elements), function-pointer impls for 0 through 9 parameters
(`impl_fn_signature_hash!(T0 .. T9)`: the first identifier is the return
type, leaving at most nine parameters), and array impls exactly for the
lengths enumerated in `array_lengths`. -/
def supported : Ty → Bool
  | .prim _ => true
  | .tuple ts => decide (ts.length ≤ 10) && supported_all ts
  | .fnPtr ps r => decide (ps.length ≤ 9) && supported_all ps && supported r
  | .array t n => decide (n ∈ array_lengths) && supported t
  | .slice t => supported t
  | .ref t => supported t
  | .refMut t => supported t
  | .ptrConst t => supported t
  | .ptrMut t => supported t
  | .boxed t => supported t
  | .rc t => supported t
  | .arc t => supported t
  | .option t => supported t
  | .vec t => supported t
  | .vecDeque t => supported t
  | .linkedList t => supported t
  | .result t e => supported t && supported e
  | .cow t => supported t

/-- All types of a list are supported. -/
def supported_all : List Ty → Bool
  | [] => true
  | t :: ts => supported t && supported_all ts
end

mutual
/-- The ordered sequence of fragments the `write_str` calls of each
implementation attempt, mirroring `write_type_name` call for call. -/
def fragments : Ty → List String
  | .prim p => [primName p]
  | .tuple [] => ["()"]
  | .tuple [t] => "(" :: (fragments t ++ [",)"])
  | .tuple (h :: t :: ts) =>
      "(" :: (fragments h ++ frag_tuple_tail (t :: ts) ++ [")"])
  | .fnPtr [] r => "fn() -> " :: fragments r
  | .fnPtr (h :: ps) r =>
      "fn(" :: (fragments h ++ frag_fn_tail ps ++ [") -> "] ++ fragments r)
  | .array t n => "[" :: (fragments t ++ ["; ", Nat.repr n, "]"])
  | .slice t => "[" :: (fragments t ++ ["]"])
  | .ref t => "&" :: fragments t
  | .refMut t => "&mut " :: fragments t
  | .ptrConst t => "*const " :: fragments t
  | .ptrMut t => "*mut " :: fragments t
  | .boxed t => "Box" :: "<" :: (fragments t ++ [">"])
  | .rc t => "Rc" :: "<" :: (fragments t ++ [">"])
  | .arc t => "Arc" :: "<" :: (fragments t ++ [">"])
  | .option t => "Option" :: "<" :: (fragments t ++ [">"])
  | .vec t => "Vec" :: "<" :: (fragments t ++ [">"])
  | .vecDeque t => "VecDeque" :: "<" :: (fragments t ++ [">"])
  | .linkedList t => "LinkedList" :: "<" :: (fragments t ++ [">"])
  | .result t e => "Result<" :: (fragments t ++ [", "] ++ fragments e ++ [">"])
  | .cow t => "Cow<" :: (fragments t ++ [">"])

/-- Fragments of the tuple tail loop. -/
def frag_tuple_tail : List Ty → List String
  | [] => []
  | t :: ts => ", " :: (fragments t ++ frag_tuple_tail ts)

/-- Fragments of the function-pointer parameter tail loop. -/
def frag_fn_tail : List Ty → List String
  | [] => []
  | t :: ts => "," :: (fragments t ++ frag_fn_tail ts)
end

/-- Run a fragment list against a sink: attempt the appends in order and
stop at the first failure. -/
def run_frags (f : Oracle) : List String → String → String × Bool
  | [], s => (s, true)
  | x :: xs, s => andThen (wstr f x s) fun s => run_frags f xs s

/-- Concatenation of a fragment list. -/
def joinAll : List String → String
  | [] => ""
  | x :: xs => x ++ joinAll xs

/-- `sep`-prefixed concatenation: `sep ++ x` for each element. -/
def sepPre (sep : String) : List String → String
  | [] => ""
  | x :: xs => sep ++ x ++ sepPre sep xs

/-- `sep`-separated join of a list of strings. -/
def sepJoin (sep : String) : List String → String
  | [] => ""
  | x :: xs => x ++ sepPre sep xs

/-! ## Basic lemmas about the sink model -/

@[simp]
theorem wstr_never (frag s : String) : wstr never frag s = (s ++ frag, true) := by
  simp [wstr, never]

@[simp]
theorem andThen_ok (s : String) (k : String → String × Bool) :
    andThen (s, true) k = k s := rfl

@[simp]
theorem andThen_err (s : String) (k : String → String × Bool) :
    andThen (s, false) k = (s, false) := rfl

@[simp]
theorem andThen_id (r : String × Bool) : andThen r (fun s => (s, true)) = r := by
  obtain ⟨s, b⟩ := r
  cases b <;> rfl

theorem andThen_assoc (r : String × Bool) (k1 k2 : String → String × Bool) :
    andThen (andThen r k1) k2 = andThen r (fun s => andThen (k1 s) k2) := by
  obtain ⟨s, b⟩ := r
  cases b <;> rfl

theorem run_frags_append (f : Oracle) (xs ys : List String) (s : String) :
    run_frags f (xs ++ ys) s = andThen (run_frags f xs s) fun s => run_frags f ys s := by
  induction xs generalizing s with
  | nil => simp [run_frags]
  | cons x xs ih => simp [run_frags, andThen_assoc, ih]

theorem run_frags_never (xs : List String) (s : String) :
    run_frags never xs s = (s ++ joinAll xs, true) := by
  induction xs generalizing s with
  | nil => simp [run_frags, joinAll]
  | cons x xs ih => simp [run_frags, joinAll, ih, String.append_assoc]

/-! ## The trace theorem: each implementation attempts exactly its
fragment list, in order, stopping at the first failed append -/

mutual
theorem write_frags (f : Oracle) : ∀ (t : Ty) (s : String),
    write_type_name f t s = run_frags f (fragments t) s
  | .prim _, _ => by
      simp [write_type_name, fragments, run_frags]
  | .tuple [], _ => by
      simp [write_type_name, fragments, run_frags]
  | .tuple [t], s => by
      simp [write_type_name, fragments, run_frags, run_frags_append,
        andThen_assoc, write_frags f t]
  | .tuple (h :: t :: ts), s => by
      simp [write_type_name, fragments, run_frags, run_frags_append,
        andThen_assoc, write_frags f h, write_tuple_frags f (t :: ts)]
  | .fnPtr [] r, s => by
      simp [write_type_name, fragments, run_frags, run_frags_append,
        andThen_assoc, write_frags f r]
  | .fnPtr (h :: ps) r, s => by
      simp [write_type_name, fragments, run_frags, run_frags_append,
        andThen_assoc, write_frags f h, write_fn_frags f ps, write_frags f r]
  | .array t n, s => by
      simp [write_type_name, fragments, run_frags, run_frags_append,
        andThen_assoc, write_frags f t]
  | .slice t, s => by
      simp [write_type_name, fragments, run_frags, run_frags_append,
        andThen_assoc, write_frags f t]
  | .ref t, s => by
      simp [write_type_name, fragments, run_frags, write_frags f t]
  | .refMut t, s => by
      simp [write_type_name, fragments, run_frags, write_frags f t]
  | .ptrConst t, s => by
      simp [write_type_name, fragments, run_frags, write_frags f t]
  | .ptrMut t, s => by
      simp [write_type_name, fragments, run_frags, write_frags f t]
  | .boxed t, s => by
      simp [write_type_name, fragments, run_frags, run_frags_append,
        andThen_assoc, write_frags f t]
  | .rc t, s => by
      simp [write_type_name, fragments, run_frags, run_frags_append,
        andThen_assoc, write_frags f t]
  | .arc t, s => by
      simp [write_type_name, fragments, run_frags, run_frags_append,
        andThen_assoc, write_frags f t]
  | .option t, s => by
      simp [write_type_name, fragments, run_frags, run_frags_append,
        andThen_assoc, write_frags f t]
  | .vec t, s => by
      simp [write_type_name, fragments, run_frags, run_frags_append,
        andThen_assoc, write_frags f t]
  | .vecDeque t, s => by
      simp [write_type_name, fragments, run_frags, run_frags_append,
        andThen_assoc, write_frags f t]
  | .linkedList t, s => by
      simp [write_type_name, fragments, run_frags, run_frags_append,
        andThen_assoc, write_frags f t]
  | .result t e, s => by
      simp [write_type_name, fragments, run_frags, run_frags_append,
        andThen_assoc, write_frags f t, write_frags f e]
  | .cow t, s => by
      simp [write_type_name, fragments, run_frags, run_frags_append,
        andThen_assoc, write_frags f t]

theorem write_tuple_frags (f : Oracle) : ∀ (ts : List Ty) (s : String),
    write_tuple_tail f ts s = run_frags f (frag_tuple_tail ts) s
  | [], _ => by
      simp [write_tuple_tail, frag_tuple_tail, run_frags]
  | t :: ts, s => by
      simp [write_tuple_tail, frag_tuple_tail, run_frags, run_frags_append,
        andThen_assoc, write_frags f t, write_tuple_frags f ts]

theorem write_fn_frags (f : Oracle) : ∀ (ts : List Ty) (s : String),
    write_fn_tail f ts s = run_frags f (frag_fn_tail ts) s
  | [], _ => by
      simp [write_fn_tail, frag_fn_tail, run_frags]
  | t :: ts, s => by
      simp [write_fn_tail, frag_fn_tail, run_frags, run_frags_append,
        andThen_assoc, write_frags f t, write_fn_frags f ts]
end

/-! ## Derived facts about the infallible entry point -/

/-- `type_name` is the concatenation of the implementation's fragments. -/
theorem type_name_eq (t : Ty) : type_name t = joinAll (fragments t) := by
  simp [type_name, write_frags, run_frags_never]

/-- On the infallible `String` sink, every implementation succeeds and
appends exactly `type_name t`, whatever the buffer already holds. -/
theorem write_never_eq (t : Ty) (s : String) :
    write_type_name never t s = (s ++ type_name t, true) := by
  simp [write_frags, run_frags_never, type_name_eq]

theorem joinAll_append (xs ys : List String) :
    joinAll (xs ++ ys) = joinAll xs ++ joinAll ys := by
  induction xs with
  | nil => simp [joinAll]
  | cons x xs ih => simp [joinAll, ih, String.append_assoc]

theorem run_frags_prefix (f : Oracle) (xs : List String) (s : String) :
    ∃ d, (run_frags f xs s).1 = s ++ d := by
  induction xs generalizing s with
  | nil => exact ⟨"", by simp [run_frags]⟩
  | cons x xs ih =>
      by_cases h : f s x
      · exact ⟨"", by simp [run_frags, wstr, h]⟩
      · obtain ⟨d, hd⟩ := ih (s ++ x)
        exact ⟨x ++ d, by simp [run_frags, wstr, h, hd, String.append_assoc]⟩

/-- The tuple tail loop renders `", " ++ name` for each element. -/
theorem joinAll_frag_tuple_tail (ts : List Ty) :
    joinAll (frag_tuple_tail ts) = sepPre ", " (ts.map type_name) := by
  induction ts with
  | nil => simp [frag_tuple_tail, sepPre, joinAll]
  | cons t ts ih =>
      simp [frag_tuple_tail, sepPre, joinAll, joinAll_append, ih,
        type_name_eq, String.append_assoc]

/-- The function-pointer tail loop renders `"," ++ name` per parameter. -/
theorem joinAll_frag_fn_tail (ts : List Ty) :
    joinAll (frag_fn_tail ts) = sepPre "," (ts.map type_name) := by
  induction ts with
  | nil => simp [frag_fn_tail, sepPre, joinAll]
  | cons t ts ih =>
      simp [frag_fn_tail, sepPre, joinAll, joinAll_append, ih,
        type_name_eq, String.append_assoc]

/-- A nonempty string has positive length. -/
theorem str_length_pos (x : String) (hx : x ≠ "") : 0 < x.length := by
  obtain ⟨xd⟩ := x
  cases xd with
  | nil => exact absurd rfl hx
  | cons c cs => simp [String.length]

/-- Every implementation's first attempted fragment is a nonempty
literal. -/
theorem fragments_head : ∀ t : Ty, ∃ x xs, fragments t = x :: xs ∧ x ≠ ""
  | .prim p => ⟨primName p, [], by simp [fragments], by cases p <;> decide⟩
  | .tuple [] => ⟨"()", [], by simp [fragments], by decide⟩
  | .tuple [t] => ⟨"(", fragments t ++ [",)"], by simp [fragments], by decide⟩
  | .tuple (h :: t :: ts) =>
      ⟨"(", fragments h ++ frag_tuple_tail (t :: ts) ++ [")"],
        by simp [fragments], by decide⟩
  | .fnPtr [] r => ⟨"fn() -> ", fragments r, by simp [fragments], by decide⟩
  | .fnPtr (h :: ps) r =>
      ⟨"fn(", fragments h ++ frag_fn_tail ps ++ [") -> "] ++ fragments r,
        by simp [fragments], by decide⟩
  | .array t n =>
      ⟨"[", fragments t ++ ["; ", Nat.repr n, "]"], by simp [fragments], by decide⟩
  | .slice t => ⟨"[", fragments t ++ ["]"], by simp [fragments], by decide⟩
  | .ref t => ⟨"&", fragments t, by simp [fragments], by decide⟩
  | .refMut t => ⟨"&mut ", fragments t, by simp [fragments], by decide⟩
  | .ptrConst t => ⟨"*const ", fragments t, by simp [fragments], by decide⟩
  | .ptrMut t => ⟨"*mut ", fragments t, by simp [fragments], by decide⟩
  | .boxed t =>
      ⟨"Box", "<" :: (fragments t ++ [">"]), by simp [fragments], by decide⟩
  | .rc t => ⟨"Rc", "<" :: (fragments t ++ [">"]), by simp [fragments], by decide⟩
  | .arc t => ⟨"Arc", "<" :: (fragments t ++ [">"]), by simp [fragments], by decide⟩
  | .option t =>
      ⟨"Option", "<" :: (fragments t ++ [">"]), by simp [fragments], by decide⟩
  | .vec t => ⟨"Vec", "<" :: (fragments t ++ [">"]), by simp [fragments], by decide⟩
  | .vecDeque t =>
      ⟨"VecDeque", "<" :: (fragments t ++ [">"]), by simp [fragments], by decide⟩
  | .linkedList t =>
      ⟨"LinkedList", "<" :: (fragments t ++ [">"]), by simp [fragments], by decide⟩
  | .result t e =>
      ⟨"Result<", fragments t ++ [", "] ++ fragments e ++ [">"],
        by simp [fragments], by decide⟩
  | .cow t => ⟨"Cow<", fragments t ++ [">"], by simp [fragments], by decide⟩

/-- No type renders to the empty string. -/
theorem type_name_ne_empty (t : Ty) : type_name t ≠ "" := by
  obtain ⟨x, xs, hfr, hx⟩ := fragments_head t
  intro h
  rw [type_name_eq, hfr] at h
  have hlen := congrArg String.length h
  simp [joinAll, String.length_append] at hlen
  have hpos := str_length_pos x hx
  omega

/-! ## Rendering equations per shape -/

/-- Tuples of arity at least two: comma-space separated, no trailing
comma. -/
theorem type_name_tuple_cons2 (a b : Ty) (rest : List Ty) :
    type_name (Ty.tuple (a :: b :: rest)) =
      "(" ++ sepJoin ", " ((a :: b :: rest).map type_name) ++ ")" := by
  rw [type_name_eq]
  simp [fragments, joinAll, joinAll_append, joinAll_frag_tuple_tail,
    sepJoin, sepPre, String.append_assoc, ← type_name_eq]

/-- Function pointers with at least one parameter: bare-comma separated
parameters, then the return-type suffix. -/
theorem type_name_fn_cons (h : Ty) (ps : List Ty) (r : Ty) :
    type_name (Ty.fnPtr (h :: ps) r) =
      "fn(" ++ sepJoin "," ((h :: ps).map type_name) ++ ") -> " ++ type_name r := by
  rw [type_name_eq]
  simp [fragments, joinAll, joinAll_append, joinAll_frag_fn_tail,
    sepJoin, sepPre, String.append_assoc, ← type_name_eq]

/-- Zero-parameter function pointers fit the same comma-join scheme. -/
theorem type_name_fn_nil (r : Ty) :
    type_name (Ty.fnPtr [] r) =
      "fn(" ++ sepJoin "," (([] : List Ty).map type_name) ++ ") -> " ++
        type_name r := by
  have hlit :
      ("fn(" : String) ++ sepJoin "," (([] : List Ty).map type_name) ++ ") -> " =
        "fn() -> " := by decide
  rw [hlit]
  simp [type_name_eq, fragments, joinAll]

/-! ## The claims -/

/-- C1: for every type implementing `TypeName`, the four reference and
raw-pointer implementations render as prefix followed by the inner name:
`&`, `&mut `, `*const ` and `*mut ` respectively, with no suffix and no
parentheses around the inner name. -/
theorem c1_ptr_ref_prefix_compositional (t : Ty) (h : supported t = true) :
    type_name (Ty.ref t) = "&" ++ type_name t ∧
    type_name (Ty.refMut t) = "&mut " ++ type_name t ∧
    type_name (Ty.ptrConst t) = "*const " ++ type_name t ∧
    type_name (Ty.ptrMut t) = "*mut " ++ type_name t := by
  refine ⟨?_, ?_, ?_, ?_⟩ <;> simp [type_name_eq, fragments, joinAll]

/-- Witness for C1 at the concrete inner type `bool`. -/
theorem c1_ptr_ref_prefix_compositional_witness :
    supported (Ty.prim PrimTy.bool) = true ∧
    (type_name (Ty.ref (Ty.prim PrimTy.bool)) =
        "&" ++ type_name (Ty.prim PrimTy.bool) ∧
      type_name (Ty.refMut (Ty.prim PrimTy.bool)) =
        "&mut " ++ type_name (Ty.prim PrimTy.bool) ∧
      type_name (Ty.ptrConst (Ty.prim PrimTy.bool)) =
        "*const " ++ type_name (Ty.prim PrimTy.bool) ∧
      type_name (Ty.ptrMut (Ty.prim PrimTy.bool)) =
        "*mut " ++ type_name (Ty.prim PrimTy.bool)) :=
  ⟨by decide, c1_ptr_ref_prefix_compositional (Ty.prim PrimTy.bool) (by decide)⟩

/-- C2 counterexample: the claim says function pointers are supported up
to arity 10 inclusive, but `impl_fn_signature_hash!(T0 .. T9)` spends its
first identifier on the return type, so the largest generated impl has
nine parameters.  A ten-parameter function pointer over `bool` (all of
whose parameter and return types implement `TypeName`) has no
implementation. -/
theorem c2_fn_arity_ten_counterexample :
    supported (Ty.fnPtr
      [Ty.prim PrimTy.bool, Ty.prim PrimTy.bool, Ty.prim PrimTy.bool,
       Ty.prim PrimTy.bool, Ty.prim PrimTy.bool, Ty.prim PrimTy.bool,
       Ty.prim PrimTy.bool, Ty.prim PrimTy.bool, Ty.prim PrimTy.bool,
       Ty.prim PrimTy.bool] (Ty.prim PrimTy.bool)) = false := by
  decide

/-- C2 (amended): function-pointer types are supported for every
parameter arity from 0 through 9 inclusive (one return type), and render
as `fn(` ++ the comma-separated parameter names ++ `) -> ` ++ the return
type's name. -/
theorem c2_fn_arity_zero_to_nine (ps : List Ty) (r : Ty)
    (hlen : ps.length ≤ 9) (hps : supported_all ps = true)
    (hr : supported r = true) :
    supported (Ty.fnPtr ps r) = true ∧
    type_name (Ty.fnPtr ps r) =
      "fn(" ++ sepJoin "," (ps.map type_name) ++ ") -> " ++ type_name r := by
  constructor
  · simp [supported, hlen, hps, hr]
  · cases ps with
    | nil => exact type_name_fn_nil r
    | cons h ts => exact type_name_fn_cons h ts r

/-- Witness for the amended C2 at `fn(i32) -> bool`. -/
theorem c2_fn_arity_zero_to_nine_witness :
    (([Ty.prim PrimTy.i32] : List Ty).length ≤ 9 ∧
      supported_all [Ty.prim PrimTy.i32] = true ∧
      supported (Ty.prim PrimTy.bool) = true) ∧
    (supported (Ty.fnPtr [Ty.prim PrimTy.i32] (Ty.prim PrimTy.bool)) = true ∧
      type_name (Ty.fnPtr [Ty.prim PrimTy.i32] (Ty.prim PrimTy.bool)) =
        "fn(" ++ sepJoin "," ([Ty.prim PrimTy.i32].map type_name) ++ ") -> " ++
          type_name (Ty.prim PrimTy.bool)) :=
  ⟨⟨by decide, by decide, by decide⟩,
    c2_fn_arity_zero_to_nine [Ty.prim PrimTy.i32] (Ty.prim PrimTy.bool)
      (by decide) (by decide) (by decide)⟩

/-- C3: one-element tuples render with the mandatory trailing comma,
`(` ++ name ++ `,)`; concretely `(bool,)` renders as `"(bool,)"` and the
quadruply nested single tuple as `"((((bool,),),),)"`. -/
theorem c3_unary_tuple_trailing_comma (t : Ty) (h : supported t = true) :
    type_name (Ty.tuple [t]) = "(" ++ type_name t ++ ",)" ∧
    type_name (Ty.tuple [Ty.prim PrimTy.bool]) = "(bool,)" ∧
    type_name
        (Ty.tuple [Ty.tuple [Ty.tuple [Ty.tuple [Ty.prim PrimTy.bool]]]]) =
      "((((bool,),),),)" := by
  refine ⟨?_, by decide, by decide⟩
  simp [type_name_eq, fragments, joinAll, joinAll_append, String.append_assoc]

/-- Witness for C3 at the concrete element type `u8`. -/
theorem c3_unary_tuple_trailing_comma_witness :
    supported (Ty.prim PrimTy.u8) = true ∧
    (type_name (Ty.tuple [Ty.prim PrimTy.u8]) =
        "(" ++ type_name (Ty.prim PrimTy.u8) ++ ",)" ∧
      type_name (Ty.tuple [Ty.prim PrimTy.bool]) = "(bool,)" ∧
      type_name
          (Ty.tuple [Ty.tuple [Ty.tuple [Ty.tuple [Ty.prim PrimTy.bool]]]]) =
        "((((bool,),),),)") :=
  ⟨by decide, c3_unary_tuple_trailing_comma (Ty.prim PrimTy.u8) (by decide)⟩

/-- C4: the return-type suffix is always written, even for the unit
return type: `fn()` renders as `"fn() -> ()"`, and in general every
zero-parameter function pointer renders as `fn() -> ` ++ return name. -/
theorem c4_unit_return_suffix :
    type_name (Ty.fnPtr [] (Ty.tuple [])) = "fn() -> ()" ∧
    ∀ r : Ty, supported r = true →
      type_name (Ty.fnPtr [] r) = "fn() -> " ++ type_name r := by
  refine ⟨by decide, fun r _ => ?_⟩
  simp [type_name_eq, fragments, joinAll]

/-- Witness for C4's universally quantified part at return type `bool`. -/
theorem c4_unit_return_suffix_witness :
    supported (Ty.prim PrimTy.bool) = true ∧
    type_name (Ty.fnPtr [] (Ty.prim PrimTy.bool)) =
      "fn() -> " ++ type_name (Ty.prim PrimTy.bool) :=
  ⟨by decide, c4_unit_return_suffix.2 (Ty.prim PrimTy.bool) (by decide)⟩

/-- C5: separator asymmetry.  Tuples of arity at least two join their
element names with comma-space `", "` (no trailing comma before `)`),
while function pointers with at least two parameters join them with the
bare comma `","`. -/
theorem c5_separator_asymmetry (ts ps : List Ty) (r : Ty)
    (hts : 2 ≤ ts.length) (hps : 2 ≤ ps.length)
    (hsts : supported (Ty.tuple ts) = true)
    (hsps : supported (Ty.fnPtr ps r) = true) :
    type_name (Ty.tuple ts) = "(" ++ sepJoin ", " (ts.map type_name) ++ ")" ∧
    type_name (Ty.fnPtr ps r) =
      "fn(" ++ sepJoin "," (ps.map type_name) ++ ") -> " ++ type_name r := by
  constructor
  · cases ts with
    | nil => simp at hts
    | cons a ts1 =>
        cases ts1 with
        | nil => simp at hts
        | cons b rest => exact type_name_tuple_cons2 a b rest
  · cases ps with
    | nil => simp at hps
    | cons a ps1 => exact type_name_fn_cons a ps1 r

/-- Witness for C5 at `(bool, i32)` and `fn(bool,i32) -> bool`. -/
theorem c5_separator_asymmetry_witness :
    (2 ≤ ([Ty.prim PrimTy.bool, Ty.prim PrimTy.i32] : List Ty).length ∧
      supported (Ty.tuple [Ty.prim PrimTy.bool, Ty.prim PrimTy.i32]) = true ∧
      supported (Ty.fnPtr [Ty.prim PrimTy.bool, Ty.prim PrimTy.i32]
        (Ty.prim PrimTy.bool)) = true) ∧
    (type_name (Ty.tuple [Ty.prim PrimTy.bool, Ty.prim PrimTy.i32]) =
        "(" ++
          sepJoin ", "
            (([Ty.prim PrimTy.bool, Ty.prim PrimTy.i32] : List Ty).map type_name)
          ++ ")" ∧
      type_name (Ty.fnPtr [Ty.prim PrimTy.bool, Ty.prim PrimTy.i32]
          (Ty.prim PrimTy.bool)) =
        "fn(" ++
          sepJoin ","
            (([Ty.prim PrimTy.bool, Ty.prim PrimTy.i32] : List Ty).map type_name)
          ++ ") -> " ++ type_name (Ty.prim PrimTy.bool)) :=
  ⟨⟨by decide, by decide, by decide⟩,
    c5_separator_asymmetry
      [Ty.prim PrimTy.bool, Ty.prim PrimTy.i32]
      [Ty.prim PrimTy.bool, Ty.prim PrimTy.i32]
      (Ty.prim PrimTy.bool) (by decide) (by decide) (by decide) (by decide)⟩

/-- C6: fixed arrays are supported exactly for the lengths of the closed
enumerated set, rendering as `[` ++ element name ++ `; ` ++ decimal
length ++ `]`; for a length outside the set no implementation exists. -/
theorem c6_array_closed_length_set (t : Ty) (n : Nat) (h : supported t = true) :
    (n ∈ array_lengths →
      supported (Ty.array t n) = true ∧
      type_name (Ty.array t n) =
        "[" ++ type_name t ++ "; " ++ Nat.repr n ++ "]") ∧
    (n ∉ array_lengths → supported (Ty.array t n) = false) := by
  constructor
  · intro hn
    constructor
    · simp [supported, h, hn]
    · simp [type_name_eq, fragments, joinAll, joinAll_append,
        String.append_assoc]
  · intro hn
    simp [supported, hn]

/-- Witness for C6 at `[u8; 32]` (supported) and length 33 (not). -/
theorem c6_array_closed_length_set_witness :
    supported (Ty.prim PrimTy.u8) = true ∧
    (32 ∈ array_lengths) ∧ (33 ∉ array_lengths) ∧
    supported (Ty.array (Ty.prim PrimTy.u8) 32) = true ∧
    type_name (Ty.array (Ty.prim PrimTy.u8) 32) =
      "[" ++ type_name (Ty.prim PrimTy.u8) ++ "; " ++ Nat.repr 32 ++ "]" ∧
    supported (Ty.array (Ty.prim PrimTy.u8) 33) = false :=
  ⟨by decide, by decide, by decide,
    ((c6_array_closed_length_set (Ty.prim PrimTy.u8) 32 (by decide)).1
      (by decide)).1,
    ((c6_array_closed_length_set (Ty.prim PrimTy.u8) 32 (by decide)).1
      (by decide)).2,
    (c6_array_closed_length_set (Ty.prim PrimTy.u8) 33 (by decide)).2
      (by decide)⟩

/-- C7: sink write failure is the only failure mode and is never
recovered from.  Every implementation behaves exactly like attempting its
fragment list in order against the sink, stopping at the first failed
append (so the first error is returned to the caller immediately and no
further writes happen); and when the write fails, the top-level entry
point panics (`none`) instead of returning a partial or empty name. -/
theorem c7_error_propagation (f : Oracle) (t : Ty) (s : String) :
    write_type_name f t s = run_frags f (fragments t) s ∧
    ((write_type_name f t "").2 = false → type_name_with f t = none) := by
  refine ⟨write_frags f t s, fun h => ?_⟩
  simp [type_name_with, h]

/-- Witness for C7 on a sink whose writes all fail: rendering `bool`
fails and the entry point returns no string. -/
theorem c7_error_propagation_witness :
    (write_type_name always_fail (Ty.prim PrimTy.bool) "").2 = false ∧
    type_name_with always_fail (Ty.prim PrimTy.bool) = none :=
  ⟨by decide,
    (c7_error_propagation always_fail (Ty.prim PrimTy.bool) "").2 (by decide)⟩

/-- C8: rendering is deterministic and free of cross-render state: on the
infallible sink, rendering a type into any two buffers (whatever they
already hold from prior renders) succeeds and appends the identical
string `type_name t`, which depends only on the type. -/
theorem c8_deterministic_rendering (t : Ty) (s1 s2 : String) :
    write_type_name never t s1 = (s1 ++ type_name t, true) ∧
    write_type_name never t s2 = (s2 ++ type_name t, true) :=
  ⟨write_never_eq t s1, write_never_eq t s2⟩

/-- C9: every implementation treats the sink as append-only: whatever the
starting contents `s` and whether the render succeeds or fails, the final
sink contents extend `s` — nothing is truncated or overwritten. -/
theorem c9_sink_append_only (f : Oracle) (t : Ty) (s : String) :
    ∃ d, (write_type_name f t s).1 = s ++ d := by
  rw [write_frags]
  exact run_frags_prefix f (fragments t) s

/-- C10: every supported type renders to a nonempty string. -/
theorem c10_nonempty_rendering (t : Ty) (h : supported t = true) :
    type_name t ≠ "" :=
  type_name_ne_empty t

/-- Witness for C10 at the concrete type `bool`. -/
theorem c10_nonempty_rendering_witness :
    supported (Ty.prim PrimTy.bool) = true ∧
    type_name (Ty.prim PrimTy.bool) ≠ "" :=
  ⟨by decide, c10_nonempty_rendering (Ty.prim PrimTy.bool) (by decide)⟩
